import Mathlib

/-!
Verification of the lowfi playback orchestration core.

The control loop lives in src/player.rs (Player::play); the terminal UI
side in src/player/ui.rs. Machine floats (f32 volume, playback position)
are modelled as rationals; fallible or panicking paths return Option;
channel sends are modelled by explicit outcome values.
-/

namespace Lowfi

/-- Track metadata (tracks::Info) as read by the player core: display name,
origin path, whether the name is custom, rendered width, known duration. -/
structure Info where
  display_name : String
  full_path : String
  custom_name : Bool
  width : Nat
  duration : Option Nat
  deriving DecidableEq

/-- The closed set of inbound control messages (enum Messages). -/
inductive Messages where
  | Init
  | Next
  | TryAgain
  | Play
  | Pause
  | PlayPause
  | ChangeVolume (delta : ℚ)
  | NewSong
  | Bookmark
  | Quit
  deriving DecidableEq

/-- The closed set of outbound UI events (enum UIEvent in src/player/ui.rs). -/
inductive UIEvent where
  | Redraw
  | VolumeChanged
  | TrackChanged
  | PlaybackStateChanged
  | ProgressUpdate
  | BookmarkChanged
  deriving DecidableEq

/-- The player state visible to the control loop in Player::play:
the sink pause flag and volume, the sink position, the bookmarked flag,
the Now-Playing slot (ArcSwapOption current), the local armed flag
(let mut new in Player::play) and the emit_progress flag. -/
structure PlayerState where
  paused : Bool
  volume : ℚ
  position : ℚ
  bookmarked : Bool
  current : Option Info
  new : Bool
  emit_progress : Bool
  deriving DecidableEq

/-- Rust clamp on ordered (non-NaN) values: below lo gives lo, above hi
gives hi, otherwise the value itself. -/
def rustClamp (x lo hi : ℚ) : ℚ :=
  if x < lo then lo else if hi < x then hi else x

/-- Player::set_volume: sets the sink volume, clamping to 0.0..1.0. -/
def set_volume (s : PlayerState) (v : ℚ) : PlayerState :=
  { s with volume := rustClamp v 0 1 }

/-- Player::current_exists: whether the Now-Playing slot holds a track. -/
def current_exists (s : PlayerState) : Bool :=
  s.current.isSome

/-- Playback information handed to UI components (struct PlaybackInfo). -/
structure PlaybackInfo where
  is_paused : Bool
  is_playing : Bool
  volume : ℚ
  position : ℚ
  is_bookmarked : Bool
  deriving DecidableEq

/-- Player::get_playback_info. -/
def get_playback_info (s : PlayerState) : PlaybackInfo where
  is_paused := s.paused
  is_playing := current_exists s && !s.paused
  volume := s.volume
  position := s.position
  is_bookmarked := s.bookmarked

/-- The result of one iteration of the message match in Player::play:
the new state, the UI events sent in order, whether Self::next was spawned
(a track advance started), and the record handed to the bookmark
persistence collaborator, when any. -/
structure StepOut where
  state : PlayerState
  events : List UIEvent
  advance : Bool
  persisted : Option (String × Option String)
  deriving DecidableEq

/-- One iteration of the match on a received message in Player::play.
bres is the new bookmark state returned by the bookmark persistence
collaborator (bookmark::bookmark). Returns none when the iteration
panics (the unwrap of the empty Now-Playing slot in the Bookmark arm). -/
def step (s : PlayerState) (bres : Bool) : Messages → Option StepOut
  | .Next =>
      let s1 := { s with bookmarked := false, new := false }
      if s.current.isNone then
        some ⟨s1, [], false, none⟩
      else
        some ⟨s1, [.TrackChanged], true, none⟩
  | .Init =>
      some ⟨{ s with bookmarked := false, new := false }, [.TrackChanged], true, none⟩
  | .TryAgain =>
      some ⟨{ s with bookmarked := false, new := false }, [.TrackChanged], true, none⟩
  | .Play =>
      some ⟨{ s with paused := false }, [.PlaybackStateChanged], false, none⟩
  | .Pause =>
      some ⟨{ s with paused := true }, [.PlaybackStateChanged], false, none⟩
  | .PlayPause =>
      if s.paused then
        some ⟨{ s with paused := false }, [.PlaybackStateChanged], false, none⟩
      else
        some ⟨{ s with paused := true }, [.PlaybackStateChanged], false, none⟩
  | .ChangeVolume delta =>
      some ⟨set_volume s (s.volume + delta), [.VolumeChanged], false, none⟩
  | .NewSong =>
      some ⟨{ s with new := true }, [.TrackChanged], false, none⟩
  | .Bookmark =>
      match s.current with
      | none => none
      | some t =>
          some ⟨{ s with bookmarked := bres }, [.BookmarkChanged], false,
            some (t.full_path, if t.custom_name then some t.display_name else none)⟩
  | .Quit =>
      some ⟨s, [], false, none⟩

/-- What the control loop can wake up on: a control message from rx, or the
sink reporting the current track exhausted (sleep_until_end returning). -/
inductive LoopInput where
  | msg (m : Messages)
  | exhausted
  deriving DecidableEq

/-- The biased select in Player::play: a message from rx is taken as is; the
sleep_until_end branch is guarded by the armed flag (if new) and, when
taken, is handled as Messages::Next. -/
def selectMsg (s : PlayerState) : LoopInput → Option Messages
  | .msg m => some m
  | .exhausted => if s.new then some .Next else none

/-- Processing one loop input: when no select branch is enabled the loop
keeps waiting, leaving the state untouched and emitting nothing. -/
def processInput (s : PlayerState) (bres : Bool) (i : LoopInput) : Option StepOut :=
  match selectMsg s i with
  | none => some ⟨s, [], false, none⟩
  | some m => step s bres m

/-- Modelled from the spec: the install half of Self::next
(src/player/queue.rs is not in the tree). Installing a dequeued ReadyTrack
replaces the Now-Playing slot and touches no other control-loop state
(bookmark flag, armed flag, pause flag, volume). -/
def installTrack (s : PlayerState) (t : Info) : PlayerState :=
  { s with current := some t }

/-- An atom of a control-loop history: a handled message together with the
bookmark collaborator result, or an asynchronous Now-Playing install. -/
inductive Action where
  | msg (m : Messages) (bres : Bool)
  | install (t : Info)
  deriving DecidableEq

/-- Whether an action is an explicit Bookmark command. -/
def Action.isBookmark : Action → Bool
  | .msg .Bookmark _ => true
  | _ => false

/-- Running a history of actions from a state; none when some step panics. -/
def run (s : PlayerState) : List Action → Option PlayerState
  | [] => some s
  | .msg m b :: rest => (step s b m).bind fun o => run o.state rest
  | .install t :: rest => run (installTrack s t) rest

/-- Modelled from the spec: the Prefetch Queue push used by the fetch
pipeline (src/player/downloader.rs and queue.rs are not in the tree;
player.rs only declares the VecDeque buffer and its capacity). A push
suspends while len() equals capacity: it completes, appending at the back,
only when the queue is below capacity. -/
def pushQ (cap : Nat) (q : List Info) (t : Info) : Option (List Info) :=
  if q.length < cap then some (q ++ [t]) else none

/-- Modelled from the spec: the Prefetch Queue pop, suspending while empty,
otherwise removing the front element. -/
def popQ (q : List Info) : Option (Info × List Info) :=
  match q with
  | [] => none
  | t :: rest => some (t, rest)

/-- A queue operation: a fetch worker push or a control-loop pop. -/
inductive QueueOp where
  | push (t : Info)
  | pop
  deriving DecidableEq

/-- Running a sequence of queue operations; none when an operation suspends
and the trace cannot proceed. -/
def runQueue (cap : Nat) (q : List Info) : List QueueOp → Option (List Info)
  | [] => some q
  | .push t :: rest => (pushQ cap q t).bind fun q2 => runQueue cap q2 rest
  | .pop :: rest => (popQ q).bind fun p => runQueue cap p.2 rest

/-- Outcome of a bounded-channel send: delivered into the buffer, left
pending because the channel is full, or failed because the receiver is gone. -/
inductive SendOutcome where
  | delivered (buf : List UIEvent)
  | pending
  | errClosed
  deriving DecidableEq

/-- A send on the bounded tokio mpsc observer channel: it errors when the
receiver is dropped, completes at once while there is capacity, and
otherwise stays pending, awaiting capacity. -/
def chanSend (cap : Nat) (buf : List UIEvent) (closed : Bool) (e : UIEvent) : SendOutcome :=
  if closed then .errClosed
  else if buf.length < cap then .delivered (buf ++ [e])
  else .pending

/-- Player::send_ui_event: the awaited send with its error result discarded
(let _ = ui_tx.send(event).await). Returns true iff the await completes at
once so the loop goes on; false when the send stays pending on a full
channel. -/
def send_ui_event (cap : Nat) (buf : List UIEvent) (closed : Bool) (e : UIEvent) : Bool :=
  match chanSend cap buf closed e with
  | .pending => false
  | _ => true

/-- One tick of the progress emitter task spawned in Player::play: it sends
ProgressUpdate whenever emission is enabled, a track is current and the
sink is not paused. -/
def progressTick (s : PlayerState) : Option UIEvent :=
  if s.emit_progress && current_exists s && !s.paused then
    some .ProgressUpdate
  else
    none

/-- The progress representation a tick renders: the shown playback
position, when a track is current. -/
def progressRepr (s : PlayerState) : Option ℚ :=
  s.current.map fun _ => s.position

/-- Modelled from the spec: a progress tick that emits only when a track is
current, playback is unpaused, and the recomputed representation differs
from the previous tick. Refinement target for the broadcaster claim. -/
def specTick (s : PlayerState) (lastRepr : Option ℚ) : Option UIEvent :=
  if current_exists s && !s.paused && decide (progressRepr s ≠ lastRepr) then
    some .ProgressUpdate
  else
    none

/-- The derived playback session state (enum PlaybackState of the component
system). -/
inductive PlaybackState where
  | Loading
  | Playing
  | Paused
  deriving DecidableEq

/-- UIManager::update in src/player/ui.rs: the playback state written into
the render context. -/
def derivedState (s : PlayerState) : PlaybackState :=
  if s.current.isNone then .Loading
  else if s.paused then .Paused
  else .Playing

/-- The session-state mapping as the spec words it: Loading when the slot
is empty, Paused when non-empty and the engine is paused, Playing when
non-empty and unpaused. -/
def specSessionState (s : PlayerState) : PlaybackState :=
  match s.current with
  | none => .Loading
  | some _ => if s.paused then .Paused else .Playing

/-- A sample track used by concrete witnesses. -/
def sampleInfo : Info :=
  ⟨"lofi beats", "https://example.org/lofi.mp3", false, 4, none⟩

/-- C1: an engine-exhaustion signal is only honored when the armed flag was
set by a prior NewSong: while the flag is down the select branch is
disabled, so the exhaustion input changes nothing, emits no event, and
starts no advance; and every Next, Init or TryAgain iteration clears the
armed flag. -/
theorem exhaustion_gated_by_armed (s : PlayerState) (b : Bool) :
    processInput { s with new := false } b .exhausted
      = some ⟨{ s with new := false }, [], false, none⟩ ∧
    ((step s b .Next).map fun o => o.state.new) = some false ∧
    ((step s b .Init).map fun o => o.state.new) = some false ∧
    ((step s b .TryAgain).map fun o => o.state.new) = some false := by
  refine ⟨?_, ?_, rfl, rfl⟩
  · simp [processInput, selectMsg]
  · unfold step
    rcases s.current <;> simp

/-- C2: a ChangeVolume command emits exactly one VolumeChanged event and
sets the volume to clamp(current + delta, 0, 1); a clamped value always
lies in the interval from 0 to 1; in particular clamping 0.9 + 0.3 gives
volume 1. -/
theorem volume_change_clamped (s : PlayerState) (b : Bool) (delta : ℚ) :
    ((step s b (.ChangeVolume delta)).map fun o => o.events)
      = some [UIEvent.VolumeChanged] ∧
    ((step s b (.ChangeVolume delta)).map fun o => o.state.volume)
      = some (rustClamp (s.volume + delta) 0 1) ∧
    (∀ v : ℚ, 0 ≤ rustClamp v 0 1 ∧ rustClamp v 0 1 ≤ 1) ∧
    rustClamp (9 / 10 + 3 / 10) 0 1 = 1 := by
  refine ⟨rfl, rfl, ?_, by norm_num [rustClamp]⟩
  intro v
  unfold rustClamp
  split_ifs with h1 h2 <;> constructor <;> linarith

/-- C3: the Bookmark arm unwraps the Now-Playing slot, so a Bookmark
message while the slot is empty panics the control loop instead of being a
no-op: the iteration is modelled as returning none. -/
theorem bookmark_without_track_panics (s : PlayerState) (b : Bool) :
    step { s with current := none } b .Bookmark = none := by
  simp [step]

/-- A concrete state refuting C4: no current track, bookmark flag set,
armed flag set. -/
def noTrackState : PlayerState :=
  ⟨false, 1, 0, true, none, true, true⟩

/-- C4 counterexample: a Next message with no current track does change the
player state — the bookmark flag and the armed flag are cleared before the
no-op check, so the state after the iteration differs from the state
before it. -/
theorem next_no_track_changes_flags :
    ((step noTrackState true .Next).map fun o => o.state) ≠ some noTrackState := by
  decide

/-- C4 amended: a Next message with no current track emits no event and
starts no advance, but first clears the bookmark flag and the armed flag;
everything else is unchanged. -/
theorem next_no_track_amended (s : PlayerState) (b : Bool) :
    step { s with current := none } b .Next
      = some ⟨{ s with current := none, bookmarked := false, new := false },
          [], false, none⟩ := by
  simp [step]

/-- C9: the playback session state written by UIManager::update is exactly
the spec mapping — Loading on an empty slot, Paused on a non-empty slot
with a paused engine, Playing otherwise — and get_playback_info reports
is_playing exactly on the Playing state. -/
theorem session_state_correct (s : PlayerState) :
    derivedState s = specSessionState s ∧
    (get_playback_info s).is_playing = decide (derivedState s = .Playing) := by
  rcases hc : s.current <;> rcases hp : s.paused <;>
    simp [derivedState, specSessionState, get_playback_info, current_exists, hc, hp]

/-- C10: handling PlayPause twice in a row toggles the engine pause flag
twice, returning it to its original value, whatever the rest of the state
and whether a current track exists. -/
theorem playpause_involution (s : PlayerState) (b1 b2 : Bool) :
    ((step s b1 .PlayPause).bind fun o =>
      (step o.state b2 .PlayPause).map fun o2 => o2.state.paused)
      = some s.paused := by
  rcases hp : s.paused <;> simp [step, hp]

/-- A non-Bookmark iteration never raises the bookmark flag: from a state
with the flag down, the flag stays down. -/
lemma step_keeps_unbookmarked (s : PlayerState) (b : Bool) (m : Messages)
    (hm : m ≠ .Bookmark) (hs : s.bookmarked = false) :
    ((step s b m).map fun o => o.state.bookmarked) = some false := by
  cases m with
  | Next =>
      simp only [step]
      split <;> simp [hs]
  | Init => simp [step]
  | TryAgain => simp [step]
  | Play => simp [step, hs]
  | Pause => simp [step, hs]
  | PlayPause =>
      simp only [step]
      split <;> simp [hs]
  | ChangeVolume delta => simp [step, set_volume, hs]
  | NewSong => simp [step, hs]
  | Bookmark => exact absurd rfl hm
  | Quit => simp [step, hs]

/-- Every Next, Init or TryAgain iteration clears the bookmark flag. -/
lemma step_transition_clears_bookmark (s : PlayerState) (b : Bool) (m : Messages)
    (hm : m = .Next ∨ m = .Init ∨ m = .TryAgain) :
    ((step s b m).map fun o => o.state.bookmarked) = some false := by
  rcases hm with rfl | rfl | rfl
  · simp only [step]
    split <;> simp
  · simp [step]
  · simp [step]

/-- A history with no explicit Bookmark command never raises the bookmark
flag. -/
lemma run_keeps_unbookmarked (acts : List Action) :
    ∀ s s2 : PlayerState, s.bookmarked = false →
      (∀ a ∈ acts, a.isBookmark = false) → run s acts = some s2 →
      s2.bookmarked = false := by
  induction acts with
  | nil =>
      intro s s2 hs _ hr
      simp [run] at hr
      exact hr ▸ hs
  | cons a rest ih =>
      intro s s2 hs hacts hr
      cases a with
      | msg m b =>
          simp [run, Option.bind_eq_some] at hr
          obtain ⟨o, ho, hrest⟩ := hr
          have hm : m ≠ .Bookmark := by
            intro hmm
            subst hmm
            simpa [Action.isBookmark] using hacts (.msg .Bookmark b) (by simp)
          have hb : o.state.bookmarked = false := by
            have hx := step_keeps_unbookmarked s b m hm hs
            rw [ho] at hx
            simpa using hx
          exact ih o.state s2 hb (fun x hx => hacts x (by simp [hx])) hrest
      | install t =>
          simp [run] at hr
          exact ih (installTrack s t) s2 (by simpa [installTrack] using hs)
            (fun x hx => hacts x (by simp [hx])) hr

/-- C5: after any Next, Init or TryAgain iteration the bookmark flag reads
false, and it stays false along any further history of handled messages and
asynchronous track installs that contains no explicit Bookmark command. -/
theorem bookmark_cleared_until_bookmark (s : PlayerState) (b : Bool) (m : Messages)
    (hm : m = .Next ∨ m = .Init ∨ m = .TryAgain)
    (o : StepOut) (ho : step s b m = some o)
    (acts : List Action) (hacts : ∀ a ∈ acts, a.isBookmark = false)
    (s2 : PlayerState) (hrun : run o.state acts = some s2) :
    o.state.bookmarked = false ∧ s2.bookmarked = false := by
  have h1 : o.state.bookmarked = false := by
    have hx := step_transition_clears_bookmark s b m hm
    rw [ho] at hx
    simpa using hx
  exact ⟨h1, run_keeps_unbookmarked acts o.state s2 h1 hacts hrun⟩

/-- A concrete state with a playing track, both flags raised. -/
def playingState : PlayerState :=
  ⟨false, 1, 0, true, some sampleInfo, true, true⟩

/-- The concrete iteration output of a Next handled from playingState. -/
def stepNextOut : StepOut :=
  ⟨⟨false, 1, 0, false, some sampleInfo, false, true⟩, [.TrackChanged], true, none⟩

/-- The concrete state after a PlayPause, an install and a NewSong follow
that Next. -/
def afterActsState : PlayerState :=
  ⟨true, 1, 0, false, some sampleInfo, true, true⟩

/-- C5 witness: the bookmark-reset theorem applied to a concrete Next from
playingState followed by a concrete Bookmark-free history. -/
theorem bookmark_cleared_until_bookmark_witness :
    stepNextOut.state.bookmarked = false ∧ afterActsState.bookmarked = false :=
  bookmark_cleared_until_bookmark playingState true .Next (Or.inl rfl) stepNextOut
    (by decide) [.msg .PlayPause true, .install sampleInfo, .msg .NewSong true]
    (by decide) afterActsState (by decide)

/-- C6: the prefetch queue never exceeds the configured capacity — every
trace of pushes and pops that starts within the bound ends within the
bound, a push on a full queue suspending instead of growing the queue. -/
theorem queue_bounded (cap : Nat) (ops : List QueueOp) :
    ∀ q q2 : List Info, q.length ≤ cap → runQueue cap q ops = some q2 →
      q2.length ≤ cap := by
  induction ops with
  | nil =>
      intro q q2 h hr
      simp [runQueue] at hr
      exact hr ▸ h
  | cons op rest ih =>
      intro q q2 h hr
      cases op with
      | push t =>
          simp [runQueue, Option.bind_eq_some] at hr
          obtain ⟨q1, hq1, hrest⟩ := hr
          by_cases hlt : q.length < cap
          · rw [pushQ, if_pos hlt] at hq1
            cases hq1
            exact ih (q ++ [t]) q2 (by simp; omega) hrest
          · rw [pushQ, if_neg hlt] at hq1
            exact absurd hq1 (by simp)
      | pop =>
          cases q with
          | nil => simp [runQueue, popQ] at hr
          | cons t q0 =>
              simp [runQueue, popQ] at hr
              exact ih q0 q2 (by simp at h; omega) hr

/-- C6 witness: the bound theorem applied to a concrete trace of two pushes
and a pop at capacity 2. -/
theorem queue_bounded_witness :
    ([] : List Info).length ≤ 2 ∧ [sampleInfo].length ≤ 2 :=
  ⟨by decide,
    queue_bounded 2 [.push sampleInfo, .push sampleInfo, .pop] [] [sampleInfo]
      (by decide) (by decide)⟩

/-- C7 counterexample: a send of TrackChanged on a full, open observer
channel of capacity 1 stays pending — the control loop suspends awaiting
capacity instead of continuing at once, contrary to the claim that a full
channel never blocks the loop. -/
theorem send_on_full_channel_blocks :
    send_ui_event 1 [UIEvent.Redraw] false UIEvent.TrackChanged = false := by
  decide

/-- C7 amended: a send failure from a closed observer channel is swallowed
and the loop continues at once; a send on an open channel below capacity
also completes at once; but a send on a full open channel stays pending,
suspending the loop until the observer drains. -/
theorem send_best_effort_amended (cap : Nat) (buf : List UIEvent) (e : UIEvent) :
    send_ui_event cap buf true e = true ∧
    send_ui_event (buf.length + 1) buf false e = true ∧
    send_ui_event buf.length buf false e = false := by
  refine ⟨?_, ?_, ?_⟩ <;> simp [send_ui_event, chanSend]

/-- A concrete steady playing state: track current, unpaused, emission on. -/
def steadyState : PlayerState :=
  ⟨false, 1, 0, false, some sampleInfo, false, true⟩

/-- C8 counterexample: on a tick whose recomputed representation equals the
previous one, the emitter task still sends ProgressUpdate, while the
spec-modelled coalescing tick sends nothing. -/
theorem progress_tick_without_change :
    progressTick steadyState = some UIEvent.ProgressUpdate ∧
    specTick steadyState (progressRepr steadyState) = none := by
  constructor <;> rfl

/-- C8 amended: on each tick a notification is emitted exactly when
emission is enabled, a track is current and playback is unpaused; the tick
makes no comparison with any previous representation, so equal consecutive
representations still emit. -/
theorem progress_tick_amended (s : PlayerState) (t : Info) :
    progressTick { s with emit_progress := true, current := some t, paused := false }
      = some .ProgressUpdate ∧
    progressTick { s with paused := true } = none ∧
    progressTick { s with current := none } = none ∧
    progressTick { s with emit_progress := false } = none := by
  refine ⟨?_, ?_, ?_, ?_⟩ <;> simp [progressTick, current_exists]

end Lowfi
